import Mathlib

/-!
Verification development for the `nanort` LAS point-cloud renderer example
(`examples/las/render.cc`, `examples/las/render-config.cc`).

The sphere intersector works on IEEE `float`s; here its arithmetic is
embedded exactly over `ℚ` (the real-arithmetic reading of the code), with
the library `sqrt` call kept as an explicit function parameter `sq`.  A
second embedding (`IntersectF`) tracks NaN propagation: a value is either
a rational number or NaN, arithmetic propagates NaN, and every ordered
comparison involving NaN is false, exactly as in IEEE-754.  The
transcendental surface-parameter code of `PostTraversal` is embedded over
`ℝ`.
-/

namespace Example

/-- 3-vector of rationals, modelling `nanort::real3<float>` componentwise. -/
@[ext]
structure Vec3 where
  x : ℚ
  y : ℚ
  z : ℚ
deriving DecidableEq

/-- `vdot`: componentwise dot product of two 3-vectors. -/
def vdot (a b : Vec3) : ℚ :=
  a.x * b.x + a.y * b.y + a.z * b.z

/-- Componentwise vector subtraction. -/
def vsub (a b : Vec3) : Vec3 :=
  ⟨a.x - b.x, a.y - b.y, a.z - b.z⟩

/-- Componentwise vector addition. -/
def vadd (a b : Vec3) : Vec3 :=
  ⟨a.x + b.x, a.y + b.y, a.z + b.z⟩

/-- Scalar multiple of a 3-vector. -/
def smul (t : ℚ) (v : Vec3) : Vec3 :=
  ⟨t * v.x, t * v.y, t * v.z⟩

/-- `nanort::Ray<float>`: origin, direction and the `[min_t, max_t]` interval. -/
structure Ray where
  org : Vec3
  dir : Vec3
  min_t : ℚ
  max_t : ℚ

/-- `nanort::BVHTraceOptions`: the half-open primitive id range
`prim_ids_range = [lo, hi)` used for filtering. -/
structure BVHTraceOptions where
  prim_ids_lo : ℕ
  prim_ids_hi : ℕ

/-- The member state of `SphereIntersector`: the geometry arrays
(`vertices_` flattened xyz triples, `radiuss_`), the ray recorded by
`PrepareTraversal` (`ray_org_`, `ray_dir_`), the recorded trace options,
and the closest-hit record (`t_`, `prim_id_`) written by `Update`. -/
structure SphereIntersectorState where
  vertices : ℕ → ℚ
  radiuss : ℕ → ℚ
  ray_org : Vec3
  ray_dir : Vec3
  trace_options : BVHTraceOptions
  t_ : ℚ
  prim_id_ : ℕ

/-- `float3 center(&vertices_[3 * prim_index])`. -/
def sphereCenter (S : SphereIntersectorState) (i : ℕ) : Vec3 :=
  ⟨S.vertices (3 * i), S.vertices (3 * i + 1), S.vertices (3 * i + 2)⟩

/-- `float3 oc = ray_org_ - center`. -/
def ocOf (S : SphereIntersectorState) (i : ℕ) : Vec3 :=
  vsub S.ray_org (sphereCenter S i)

/-- `float a = vdot(ray_dir_, ray_dir_)`. -/
def aOf (S : SphereIntersectorState) : ℚ :=
  vdot S.ray_dir S.ray_dir

/-- `float b = 2.0 * vdot(ray_dir_, oc)`. -/
def bOf (S : SphereIntersectorState) (i : ℕ) : ℚ :=
  2 * vdot S.ray_dir (ocOf S i)

/-- `float c = vdot(oc, oc) - radius * radius`. -/
def cOf (S : SphereIntersectorState) (i : ℕ) : ℚ :=
  vdot (ocOf S i) (ocOf S i) - S.radiuss i * S.radiuss i

/-- `float disc = b * b - 4.0 * a * c`. -/
def discrOf (a b c : ℚ) : ℚ :=
  b * b - 4 * a * c

/-- The quadratic-formula numerator `q`: `(-b - distSqrt) / 2.0` when
`b < 0`, else `(-b + distSqrt) / 2.0` (render.cc lines 206-211). -/
def qPre (s b : ℚ) : ℚ :=
  if b < 0 then (-b - s) / 2 else (-b + s) / 2

/-- The pair `(t0, t1)` computed at render.cc lines 200-216: the double
root `-0.5 * (b / a)` when `disc == 0`, otherwise `(q / a, c / q)` with
`q` built from `sqrt(disc)`. -/
def rawT (sq : ℚ → ℚ) (a b c : ℚ) : ℚ × ℚ :=
  if discrOf a b c = 0 then
    (-(1/2) * (b / a), -(1/2) * (b / a))
  else
    (qPre (sq (discrOf a b c)) b / a, c / qPre (sq (discrOf a b c)) b)

/-- The swap at render.cc lines 219-224: make sure `t0` is not larger
than `t1`. -/
def sortT (p : ℚ × ℚ) : ℚ × ℚ :=
  if p.1 > p.2 then (p.2, p.1) else p

/-- The choice at render.cc lines 232-237: take `t1` when `t0 < 0`,
else `t0`. -/
def chooseT (p : ℚ × ℚ) : ℚ :=
  if p.1 < 0 then p.2 else p.1

/-- The root-selection part of `SphereIntersector::Intersect`
(render.cc lines 196-237): `none` when `disc < 0.0` or when the larger
candidate `t1` is negative (sphere behind the ray), otherwise the chosen
candidate distance. -/
def solveT (sq : ℚ → ℚ) (a b c : ℚ) : Option ℚ :=
  if discrOf a b c < 0 then none
  else if (sortT (rawT sq a b c)).2 < 0 then none
  else some (chooseT (sortT (rawT sq a b c)))

/-- Result of one `Intersect` call: the returned `bool`, the value of the
`*t_inout` cell after the call, and the member state after the call. -/
structure IntersectResult where
  hit : Bool
  t_inout : ℚ
  st : SphereIntersectorState

/-- `SphereIntersector::Intersect` (render.cc lines 179-246).  `sq` is
the C library `sqrt`.  The primitive id filter rejects ids outside
`[prim_ids_lo, prim_ids_hi)`; then the quadratic is solved; a surviving
candidate `t` is rejected when `t > *t_inout`, otherwise `*t_inout` is
set to `t` and the call returns true.  The method never writes any
member field, so the state is returned unchanged from every exit. -/
def Intersect (sq : ℚ → ℚ) (S : SphereIntersectorState) (t_inout : ℚ)
    (prim_index : ℕ) : IntersectResult :=
  if prim_index < S.trace_options.prim_ids_lo ∨
      S.trace_options.prim_ids_hi ≤ prim_index then
    ⟨false, t_inout, S⟩
  else
    match solveT sq (aOf S) (bOf S prim_index) (cOf S prim_index) with
    | none => ⟨false, t_inout, S⟩
    | some t => if t > t_inout then ⟨false, t_inout, S⟩ else ⟨true, t, S⟩

/-- `SphereIntersector::Update` (render.cc lines 254-257): record the
new nearest hit. -/
def Update (S : SphereIntersectorState) (t : ℚ) (prim_idx : ℕ) :
    SphereIntersectorState :=
  { S with t_ := t, prim_id_ := prim_idx }

/-- `SphereIntersector::PrepareTraversal` (render.cc lines 261-272):
record the ray origin and direction and the trace options.  `min_t` and
`max_t` of the ray are not recorded. -/
def PrepareTraversal (S : SphereIntersectorState) (ray : Ray)
    (trace_options : BVHTraceOptions) : SphereIntersectorState :=
  { S with ray_org := ray.org, ray_dir := ray.dir,
           trace_options := trace_options }

/-- Modelled from the spec: the BVH traversal loop (in `nanort.h`, which
is not under `src/`) keeps a local closest distance, passes it to
`Intersect` by pointer, and "updates internal closest-hit record on
success", i.e. calls `Update(t, prim)` whenever `Intersect` returns
true.  Returns the new local closest distance and the new state. -/
def TestPrim (sq : ℚ → ℚ) (S : SphereIntersectorState) (t_inout : ℚ)
    (i : ℕ) : ℚ × SphereIntersectorState :=
  let r := Intersect sq S t_inout i
  if r.hit then (r.t_inout, Update r.st r.t_inout i) else (r.t_inout, r.st)

/-- The point `org + t * dir` on the recorded ray. -/
def rayPoint (S : SphereIntersectorState) (t : ℚ) : Vec3 :=
  vadd S.ray_org (smul t S.ray_dir)

/-- `t` parametrises a point of the sphere surface of primitive `i`:
`|org + t * dir - center|^2 = radius^2`. -/
def onSphere (S : SphereIntersectorState) (i : ℕ) (t : ℚ) : Prop :=
  vdot (vsub (rayPoint S t) (sphereCenter S i))
      (vsub (rayPoint S t) (sphereCenter S i)) = S.radiuss i * S.radiuss i

/-- Concrete instantiation of the `sqrt` parameter for the scenarios
studied below.  IEEE-754 `sqrtf` is exact on perfect squares, so on the
arguments actually reached in those scenarios (4 and 36; 0 never reaches
the `sqrt` call because of the `disc == 0` branch) this agrees with the
C library function. -/
def sqrtPS (q : ℚ) : ℚ :=
  if q = 4 then 2 else if q = 36 then 6 else 0

/-- A base intersector state whose recorded-ray fields are about to be
overwritten by `PrepareTraversal`: one unit sphere at the origin
(`vertices` all zero, radius 1 for every primitive). -/
def unitSphereBase : SphereIntersectorState :=
  { vertices := fun _ => 0, radiuss := fun _ => 1,
    ray_org := ⟨0, 0, 0⟩, ray_dir := ⟨0, 0, 0⟩,
    trace_options := ⟨0, 0⟩, t_ := 0, prim_id_ := 0 }

/-- Default-style trace options: all primitive ids admitted. -/
def allIdsOpts : BVHTraceOptions :=
  ⟨0, 2147483647⟩

/-- The axial ray `org = (0,0,3)`, `dir = (0,0,-1)` with `min_t = 0`. -/
def axialRay : Ray :=
  { org := ⟨0, 0, 3⟩, dir := ⟨0, 0, -1⟩, min_t := 0, max_t := 10 ^ 30 }

/-- The same axial ray with `min_t = 3`. -/
def axialRayMin3 : Ray :=
  { org := ⟨0, 0, 3⟩, dir := ⟨0, 0, -1⟩, min_t := 3, max_t := 10 ^ 30 }

/-- The unit-sphere state with the axial ray recorded. -/
def unitSphereS : SphereIntersectorState :=
  PrepareTraversal unitSphereBase axialRay allIdsOpts

/- ### Generic facts about the root selection -/

theorem sortT_fst_le_snd (p : ℚ × ℚ) : (sortT p).1 ≤ (sortT p).2 := by
  unfold sortT
  split_ifs with h
  · exact le_of_lt h
  · exact le_of_not_lt h

theorem sortT_cases (p : ℚ × ℚ) :
    sortT p = (p.1, p.2) ∨ sortT p = (p.2, p.1) := by
  unfold sortT
  split_ifs with h
  · exact Or.inr rfl
  · exact Or.inl rfl

theorem chooseT_nonneg (p : ℚ × ℚ) (h2 : 0 ≤ p.2) : 0 ≤ chooseT p := by
  unfold chooseT
  split_ifs with h
  · exact h2
  · exact le_of_not_lt h

theorem chooseT_mem (p : ℚ × ℚ) : chooseT p = p.1 ∨ chooseT p = p.2 := by
  unfold chooseT
  split_ifs with h
  · exact Or.inr rfl
  · exact Or.inl rfl

theorem solveT_some_nonneg (sq : ℚ → ℚ) (a b c t : ℚ)
    (h : solveT sq a b c = some t) : 0 ≤ t := by
  unfold solveT at h
  split_ifs at h with h1 h2
  have ht : t = chooseT (sortT (rawT sq a b c)) := by
    exact (Option.some_injective ℚ h).symm
  subst ht
  exact chooseT_nonneg _ (le_of_not_lt h2)

/-- On a hit, the quadratic solver accepted the returned distance and it
did not exceed the entry value of `*t_inout`. -/
theorem intersect_hit_solveT (sq : ℚ → ℚ) (S : SphereIntersectorState)
    (t_inout : ℚ) (i : ℕ)
    (h : (Intersect sq S t_inout i).hit = true) :
    solveT sq (aOf S) (bOf S i) (cOf S i) =
      some ((Intersect sq S t_inout i).t_inout) ∧
    (Intersect sq S t_inout i).t_inout ≤ t_inout := by
  by_cases h1 : i < S.trace_options.prim_ids_lo ∨
      S.trace_options.prim_ids_hi ≤ i
  · simp [Intersect, h1] at h
  · rcases hsol : solveT sq (aOf S) (bOf S i) (cOf S i) with _ | t
    · simp [Intersect, h1, hsol] at h
    · by_cases h2 : t > t_inout
      · simp [Intersect, h1, hsol, h2] at h
      · refine ⟨?_, ?_⟩ <;> simp [Intersect, h1, hsol, h2]
        exact le_of_not_lt h2

/- ### Claim C1 -/

/-- C1, counterexample: `Intersect` never reads `ray.min_t`.  With the
unit sphere at the origin and the axial ray given `min_t = 3`, the call
reports a hit at `t = 2`, which is smaller than `min_t`. -/
theorem intersect_ignores_ray_min_t :
    (Intersect sqrtPS (PrepareTraversal unitSphereBase axialRayMin3
        allIdsOpts) (10 ^ 30) 0).hit = true ∧
    (Intersect sqrtPS (PrepareTraversal unitSphereBase axialRayMin3
        allIdsOpts) (10 ^ 30) 0).t_inout = 2 ∧
    axialRayMin3.min_t = 3 ∧
    ¬ (axialRayMin3.min_t ≤ (Intersect sqrtPS (PrepareTraversal
        unitSphereBase axialRayMin3 allIdsOpts) (10 ^ 30) 0).t_inout) := by
  norm_num [Intersect, PrepareTraversal, solveT, rawT, sortT, chooseT,
    qPre, discrOf, aOf, bOf, cOf, ocOf, sphereCenter, vdot, vsub,
    unitSphereBase, axialRayMin3, allIdsOpts, sqrtPS]

/-- C1 (amended): for every ray recorded via `PrepareTraversal` whose
`min_t` is at most 0 (the renderer always uses `min_t = 0`), every hit
reported by `Intersect` returns a distance `t_new` with
`ray.min_t ≤ t_new ≤ t_current`; the guaranteed lower bound produced by
the code itself is `0`, since `Intersect` ignores `ray.min_t`. -/
theorem intersect_hit_t_nonneg_le_current (sq : ℚ → ℚ)
    (S0 : SphereIntersectorState) (ray : Ray) (opts : BVHTraceOptions)
    (t_cur : ℚ) (i : ℕ)
    (hmin : ray.min_t ≤ 0)
    (h : (Intersect sq (PrepareTraversal S0 ray opts) t_cur i).hit = true) :
    ray.min_t ≤ (Intersect sq (PrepareTraversal S0 ray opts) t_cur i).t_inout ∧
    (Intersect sq (PrepareTraversal S0 ray opts) t_cur i).t_inout ≤ t_cur := by
  obtain ⟨hsol, hle⟩ := intersect_hit_solveT sq _ t_cur i h
  exact ⟨le_trans hmin (solveT_some_nonneg _ _ _ _ _ hsol), hle⟩

/-- C1, witness: the amended bound at the axial ray with `min_t = 0`. -/
theorem intersect_hit_t_nonneg_le_current_witness :
    axialRay.min_t ≤ (Intersect sqrtPS (PrepareTraversal unitSphereBase
        axialRay allIdsOpts) (10 ^ 30) 0).t_inout ∧
    (Intersect sqrtPS (PrepareTraversal unitSphereBase axialRay
        allIdsOpts) (10 ^ 30) 0).t_inout ≤ 10 ^ 30 :=
  intersect_hit_t_nonneg_le_current sqrtPS unitSphereBase axialRay
    allIdsOpts (10 ^ 30) 0 (by norm_num [axialRay])
    (by norm_num [Intersect, PrepareTraversal, solveT, rawT, sortT,
      chooseT, qPre, discrOf, aOf, bOf, cOf, ocOf, sphereCenter, vdot,
      vsub, unitSphereBase, axialRay, allIdsOpts, sqrtPS])

/- ### Claim C2 -/

/-- Being on the sphere at parameter `t` is the same as `t` being a root
of the quadratic `a t^2 + b t + c` computed by `Intersect`. -/
theorem onSphere_iff_quad (S : SphereIntersectorState) (i : ℕ) (t : ℚ) :
    onSphere S i t ↔ aOf S * t ^ 2 + bOf S i * t + cOf S i = 0 := by
  have key : vdot (vsub (rayPoint S t) (sphereCenter S i))
      (vsub (rayPoint S t) (sphereCenter S i)) - S.radiuss i * S.radiuss i
      = aOf S * t ^ 2 + bOf S i * t + cOf S i := by
    simp only [rayPoint, aOf, bOf, cOf, ocOf, sphereCenter, vdot, vsub,
      vadd, smul]
    ring
  unfold onSphere
  rw [← sub_eq_zero (a := vdot (vsub (rayPoint S t) (sphereCenter S i))
      (vsub (rayPoint S t) (sphereCenter S i))), key]

/-- A vanishing discriminant forces the double root `-0.5 * (b / a)`. -/
theorem double_root_unique (a b c t' : ℚ) (ha : a ≠ 0)
    (hd : discrOf a b c = 0) (h : a * t' ^ 2 + b * t' + c = 0) :
    t' = -(1/2) * (b / a) := by
  have hd' : b * b - 4 * a * c = 0 := hd
  have h2 : (2 * a * t' + b) ^ 2 = 0 := by
    have e : (2 * a * t' + b) ^ 2
        = 4 * a * (a * t' ^ 2 + b * t' + c) + (b * b - 4 * a * c) := by
      ring
    rw [e, h, hd']
    ring
  have h3 : 2 * a * t' + b = 0 := by
    exact pow_eq_zero_iff (two_ne_zero) |>.mp h2
  have h2a : (2 : ℚ) * a ≠ 0 := by simpa using ha
  have e : -(1/2 : ℚ) * (b / a) = -b / (2 * a) := by
    rw [neg_mul, div_mul_div_comm, one_mul, ← neg_div]
  rw [e, eq_div_iff h2a]
  linear_combination h3

/-- An exact square root of the discriminant determines the two possible
root values. -/
theorem quad_root_values (a b c s t' : ℚ) (ha : a ≠ 0)
    (hs : s * s = discrOf a b c) (h : a * t' ^ 2 + b * t' + c = 0) :
    t' = (-b + s) / (2 * a) ∨ t' = (-b - s) / (2 * a) := by
  have hfac : (2 * a * t' + b - s) * (2 * a * t' + b + s) = 0 := by
    have hs' : s * s = b * b - 4 * a * c := hs
    linear_combination 4 * a * h - hs'
  have h2a : (2 : ℚ) * a ≠ 0 := by
    simpa using ha
  rcases mul_eq_zero.mp hfac with h1 | h1
  · left
    rw [eq_div_iff h2a]
    linear_combination h1
  · right
    rw [eq_div_iff h2a]
    linear_combination h1

/-- Evaluating the quadratic at a quotient `u / v` with `v ≠ 0`. -/
theorem quad_div_expand (a b c u v : ℚ) (hv : v ≠ 0) :
    a * (u / v) ^ 2 + b * (u / v) + c
      = (a * u ^ 2 + b * u * v + c * v ^ 2) / v ^ 2 := by
  field_simp
  ring

/-- The key identity `q^2 + b q + a c = 0` satisfied by both variants of
`q` when the square root is exact. -/
theorem qPre_key (s a b c : ℚ)
    (hs : s * s = b * b - 4 * a * c) :
    qPre s b * qPre s b + b * qPre s b + a * c = 0 := by
  have hz : s * s - (b * b - 4 * a * c) = 0 := by rw [hs]; ring
  unfold qPre
  split_ifs with hb
  · have h4 : (-b - s) / 2 * ((-b - s) / 2) + b * ((-b - s) / 2) + a * c
        = (s * s - (b * b - 4 * a * c)) / 4 := by
      field_simp
      ring
    rw [h4, hz, zero_div]
  · have h4 : (-b + s) / 2 * ((-b + s) / 2) + b * ((-b + s) / 2) + a * c
        = (s * s - (b * b - 4 * a * c)) / 4 := by
      field_simp
      ring
    rw [h4, hz, zero_div]

/-- When the discriminant vanishes, the double root `-0.5 * (b / a)`
computed by the `disc == 0` branch is a root of the quadratic. -/
theorem double_root_is_root (a b c : ℚ) (ha : a ≠ 0)
    (hd : discrOf a b c = 0) :
    a * (-(1/2 : ℚ) * (b / a)) ^ 2 + b * (-(1/2 : ℚ) * (b / a)) + c = 0 := by
  have h2a : (2 : ℚ) * a ≠ 0 := by simpa using ha
  have hd' : b * b - 4 * a * c = 0 := hd
  have e : -(1/2 : ℚ) * (b / a) = -b / (2 * a) := by
    rw [neg_mul, div_mul_div_comm, one_mul, ← neg_div]
  rw [e, quad_div_expand a b c (-b) (2 * a) h2a, div_eq_zero_iff]
  left
  linear_combination (-a) * hd'

/-- Both components of `rawT` are roots of the quadratic. -/
theorem rawT_roots (sq : ℚ → ℚ) (a b c : ℚ) (ha : a ≠ 0)
    (hs : sq (discrOf a b c) * sq (discrOf a b c) = discrOf a b c) :
    a * (rawT sq a b c).1 ^ 2 + b * (rawT sq a b c).1 + c = 0 ∧
    a * (rawT sq a b c).2 ^ 2 + b * (rawT sq a b c).2 + c = 0 := by
  by_cases hd : discrOf a b c = 0
  · rw [rawT, if_pos hd]
    exact ⟨double_root_is_root a b c ha hd, double_root_is_root a b c ha hd⟩
  · rw [rawT, if_neg hd]
    have hs' : sq (discrOf a b c) * sq (discrOf a b c)
        = b * b - 4 * a * c := hs
    generalize hgen : sq (discrOf a b c) = s at hs' ⊢
    have hkey := qPre_key s a b c hs'
    constructor
    · show a * (qPre s b / a) ^ 2 + b * (qPre s b / a) + c = 0
      rw [quad_div_expand a b c (qPre s b) a ha, div_eq_zero_iff]
      left
      linear_combination a * hkey
    · by_cases hq : qPre s b = 0
      · have hc : c = 0 := by
          have hac : a * c = 0 := by
            rw [hq] at hkey; linarith
          rcases mul_eq_zero.mp hac with h | h
          · exact absurd h ha
          · exact h
        show a * (c / qPre s b) ^ 2 + b * (c / qPre s b) + c = 0
        simp [hq, hc]
      · show a * (c / qPre s b) ^ 2 + b * (c / qPre s b) + c = 0
        rw [quad_div_expand a b c c (qPre s b) hq, div_eq_zero_iff]
        left
        linear_combination c * hkey

/-- When the discriminant is nonzero, every root of the quadratic is one
of the two components of `rawT`, provided `q` did not collapse to 0. -/
theorem rawT_complete (sq : ℚ → ℚ) (a b c t' : ℚ) (ha : a ≠ 0)
    (hd : discrOf a b c ≠ 0)
    (hq : qPre (sq (discrOf a b c)) b ≠ 0)
    (hs : sq (discrOf a b c) * sq (discrOf a b c) = discrOf a b c)
    (h : a * t' ^ 2 + b * t' + c = 0) :
    t' = (rawT sq a b c).1 ∨ t' = (rawT sq a b c).2 := by
  rw [rawT, if_neg hd]
  have hs0 : sq (discrOf a b c) * sq (discrOf a b c) = discrOf a b c := hs
  generalize hgen : sq (discrOf a b c) = s at hs0 hq ⊢
  have hs' : s * s = b * b - 4 * a * c := hs0
  have h2a : (2 : ℚ) * a ≠ 0 := by simpa using ha
  have hq1 : qPre s b / a = (if b < 0 then (-b - s) / (2 * a)
      else (-b + s) / (2 * a)) := by
    unfold qPre
    split_ifs <;> rw [div_div]
  have hq2 : c / qPre s b = (if b < 0 then (-b + s) / (2 * a)
      else (-b - s) / (2 * a)) := by
    unfold qPre
    split_ifs with hb
    · have hqb : (-b - s) / 2 ≠ 0 := by
        rw [qPre, if_pos hb] at hq; exact hq
      rw [div_eq_div_iff hqb h2a]
      linear_combination (1/2) * hs'
    · have hqb : (-b + s) / 2 ≠ 0 := by
        rw [qPre, if_neg hb] at hq; exact hq
      rw [div_eq_div_iff hqb h2a]
      linear_combination (1/2) * hs'
  rcases quad_root_values a b c s t' ha hs0 h with h1 | h1
  · by_cases hb : b < 0
    · right; rw [hq2, if_pos hb]; exact h1
    · left; rw [hq1, if_neg hb]; exact h1
  · by_cases hb : b < 0
    · left; rw [hq1, if_pos hb]; exact h1
    · right; rw [hq2, if_neg hb]; exact h1

/-- When `q` collapses to 0 (ray origin exactly on the sphere surface,
`c = 0`), both `rawT` components are 0. -/
theorem rawT_degenerate (sq : ℚ → ℚ) (a b c : ℚ) (ha : a ≠ 0)
    (hd : discrOf a b c ≠ 0)
    (hq : qPre (sq (discrOf a b c)) b = 0)
    (hs : sq (discrOf a b c) * sq (discrOf a b c) = discrOf a b c) :
    c = 0 ∧ rawT sq a b c = (0, 0) := by
  rw [rawT, if_neg hd]
  have hs' : sq (discrOf a b c) * sq (discrOf a b c)
      = b * b - 4 * a * c := hs
  generalize hgen : sq (discrOf a b c) = s at hs' hq ⊢
  have hac : a * c = 0 := by
    unfold qPre at hq
    split_ifs at hq with hb
    · have hsb : s = -b := by
        rcases div_eq_zero_iff.mp hq with h | h
        · linarith
        · norm_num at h
      rw [hsb] at hs'
      linear_combination (1/4) * hs'
    · have hsb : s = b := by
        rcases div_eq_zero_iff.mp hq with h | h
        · linarith
        · norm_num at h
      rw [hsb] at hs'
      linear_combination (1/4) * hs'
  have hc : c = 0 := by
    rcases mul_eq_zero.mp hac with h | h
    · exact absurd h ha
    · exact h
  refine ⟨hc, ?_⟩
  rw [hq, hc]
  simp

/-- C2: under a nonzero direction (`a ≠ 0`) and an exact square root of
the computed discriminant, every hit reported by `Intersect` is at the
nearer non-negative root of `|org + t * dir - center|^2 = radius^2`; a
negative discriminant, and a sphere entirely behind the ray (all roots
negative), produce a miss. -/
theorem intersect_hit_nearest_nonneg_root (sq : ℚ → ℚ)
    (S : SphereIntersectorState) (t_cur : ℚ) (i : ℕ)
    (ha : aOf S ≠ 0)
    (hs : 0 ≤ discrOf (aOf S) (bOf S i) (cOf S i) →
      sq (discrOf (aOf S) (bOf S i) (cOf S i)) *
        sq (discrOf (aOf S) (bOf S i) (cOf S i)) =
        discrOf (aOf S) (bOf S i) (cOf S i)) :
    ((Intersect sq S t_cur i).hit = true →
      onSphere S i ((Intersect sq S t_cur i).t_inout) ∧
      0 ≤ (Intersect sq S t_cur i).t_inout ∧
      ∀ t', onSphere S i t' → 0 ≤ t' →
        (Intersect sq S t_cur i).t_inout ≤ t') ∧
    (discrOf (aOf S) (bOf S i) (cOf S i) < 0 →
      (Intersect sq S t_cur i).hit = false) ∧
    ((∀ t', onSphere S i t' → t' < 0) →
      (Intersect sq S t_cur i).hit = false) := by
  set a := aOf S with hadef
  set b := bOf S i with hbdef
  set c := cOf S i with hcdef
  have main : (Intersect sq S t_cur i).hit = true →
      onSphere S i ((Intersect sq S t_cur i).t_inout) ∧
      0 ≤ (Intersect sq S t_cur i).t_inout ∧
      ∀ t', onSphere S i t' → 0 ≤ t' →
        (Intersect sq S t_cur i).t_inout ≤ t' := by
    intro h
    obtain ⟨hsol, _⟩ := intersect_hit_solveT sq S t_cur i h
    set t := (Intersect sq S t_cur i).t_inout with htdef
    have hnn : 0 ≤ t := solveT_some_nonneg sq a b c t hsol
    unfold solveT at hsol
    split_ifs at hsol with hd1 hd2
    have hdnn : 0 ≤ discrOf a b c := le_of_not_lt hd1
    have hsq := hs hdnn
    have ht : t = chooseT (sortT (rawT sq a b c)) :=
      (Option.some_injective ℚ hsol).symm
    have hroots := rawT_roots sq a b c ha hsq
    have hsorted : a * (sortT (rawT sq a b c)).1 ^ 2 +
          b * (sortT (rawT sq a b c)).1 + c = 0 ∧
        a * (sortT (rawT sq a b c)).2 ^ 2 +
          b * (sortT (rawT sq a b c)).2 + c = 0 := by
      rcases sortT_cases (rawT sq a b c) with hcase | hcase
      · rw [hcase]; exact ⟨hroots.1, hroots.2⟩
      · rw [hcase]; exact ⟨hroots.2, hroots.1⟩
    have hchosen : a * t ^ 2 + b * t + c = 0 := by
      rcases chooseT_mem (sortT (rawT sq a b c)) with hcase | hcase <;>
        rw [ht, hcase]
      · exact hsorted.1
      · exact hsorted.2
    refine ⟨(onSphere_iff_quad S i t).mpr hchosen, hnn, ?_⟩
    intro t' hsp hpos
    have hquad' : a * t' ^ 2 + b * t' + c = 0 :=
      (onSphere_iff_quad S i t').mp hsp
    by_cases hd : discrOf a b c = 0
    · have h1 : t' = -(1/2) * (b / a) :=
        double_root_unique a b c t' ha hd hquad'
      have h2 : t = -(1/2) * (b / a) := by
        rw [ht, rawT, if_pos hd]
        unfold sortT chooseT
        split_ifs <;> rfl
      rw [h1, ← h2]
    · by_cases hq : qPre (sq (discrOf a b c)) b = 0
      · obtain ⟨_, hraw⟩ := rawT_degenerate sq a b c ha hd hq hsq
        have h2 : t = 0 := by
          rw [ht, hraw]
          unfold sortT chooseT
          split_ifs <;> rfl
        rw [h2]; exact hpos
      · have hmem : t' = (rawT sq a b c).1 ∨ t' = (rawT sq a b c).2 :=
          rawT_complete sq a b c t' ha hd hq hsq hquad'
        have hmem' : t' = (sortT (rawT sq a b c)).1 ∨
            t' = (sortT (rawT sq a b c)).2 := by
          rcases sortT_cases (rawT sq a b c) with hcase | hcase
          · rw [hcase]; exact hmem
          · rw [hcase]; exact hmem.elim Or.inr Or.inl
        have hle := sortT_fst_le_snd (rawT sq a b c)
        rw [ht]
        unfold chooseT
        split_ifs with hneg
        · rcases hmem' with h1 | h1
          · exact absurd hpos (by rw [h1]; exact not_le_of_lt hneg)
          · rw [h1]
        · rcases hmem' with h1 | h1
          · rw [h1]
          · rw [h1] at *; exact hle
  refine ⟨main, ?_, ?_⟩
  · intro hd
    by_cases h1 : i < S.trace_options.prim_ids_lo ∨
        S.trace_options.prim_ids_hi ≤ i
    · simp [Intersect, h1]
    · have hsol : solveT sq a b c = none := by
        unfold solveT
        rw [if_pos hd]
      simp [Intersect, h1, hsol]
  · intro hall
    by_cases hhit : (Intersect sq S t_cur i).hit = true
    · obtain ⟨hsp, hnn, _⟩ := main hhit
      exact absurd hnn (not_le_of_lt (hall _ hsp))
    · exact eq_false_of_ne_true hhit

/-- C2, witness: the unit sphere with the axial ray (`a = 1`,
`disc = 4`, exact square root 2) satisfies all three clauses. -/
theorem intersect_hit_nearest_nonneg_root_witness :
    ((Intersect sqrtPS unitSphereS (10 ^ 30) 0).hit = true →
      onSphere unitSphereS 0 ((Intersect sqrtPS unitSphereS (10 ^ 30) 0).t_inout) ∧
      0 ≤ (Intersect sqrtPS unitSphereS (10 ^ 30) 0).t_inout ∧
      ∀ t', onSphere unitSphereS 0 t' → 0 ≤ t' →
        (Intersect sqrtPS unitSphereS (10 ^ 30) 0).t_inout ≤ t') ∧
    (discrOf (aOf unitSphereS) (bOf unitSphereS 0) (cOf unitSphereS 0) < 0 →
      (Intersect sqrtPS unitSphereS (10 ^ 30) 0).hit = false) ∧
    ((∀ t', onSphere unitSphereS 0 t' → t' < 0) →
      (Intersect sqrtPS unitSphereS (10 ^ 30) 0).hit = false) :=
  intersect_hit_nearest_nonneg_root sqrtPS unitSphereS (10 ^ 30) 0
    (by norm_num [aOf, vdot, unitSphereS, PrepareTraversal, axialRay,
      unitSphereBase])
    (fun _ => by norm_num [discrOf, aOf, bOf, cOf, ocOf, sphereCenter,
      vdot, vsub, unitSphereS, PrepareTraversal, axialRay,
      unitSphereBase, sqrtPS])

/- ### Claim C4 -/

/-- C4, counterexample: ties are NOT first-seen-wins.  Primitives 0 and
1 are identical unit spheres at the origin, both hit by the axial ray at
`t = 2`.  After primitive 0 is recorded, testing primitive 1 with the
current closest distance 2 still reports a hit (the guard is the strict
`t > *t_inout`), and the record moves to primitive 1. -/
theorem tie_at_equal_t_replaces_record :
    (TestPrim sqrtPS unitSphereS (10 ^ 30) 0).1 = 2 ∧
    (TestPrim sqrtPS unitSphereS (10 ^ 30) 0).2.prim_id_ = 0 ∧
    (Intersect sqrtPS (TestPrim sqrtPS unitSphereS (10 ^ 30) 0).2
        (TestPrim sqrtPS unitSphereS (10 ^ 30) 0).1 1).hit = true ∧
    (Intersect sqrtPS (TestPrim sqrtPS unitSphereS (10 ^ 30) 0).2
        (TestPrim sqrtPS unitSphereS (10 ^ 30) 0).1 1).t_inout = 2 ∧
    (TestPrim sqrtPS (TestPrim sqrtPS unitSphereS (10 ^ 30) 0).2
        (TestPrim sqrtPS unitSphereS (10 ^ 30) 0).1 1).2.prim_id_ = 1 ∧
    ¬ ((TestPrim sqrtPS (TestPrim sqrtPS unitSphereS (10 ^ 30) 0).2
        (TestPrim sqrtPS unitSphereS (10 ^ 30) 0).1 1).2.prim_id_ = 0) := by
  norm_num [TestPrim, Update, Intersect, solveT, rawT, sortT, chooseT,
    qPre, discrOf, aOf, bOf, cOf, ocOf, sphereCenter, vdot, vsub,
    unitSphereS, PrepareTraversal, unitSphereBase, axialRay, allIdsOpts,
    sqrtPS]

/-- C4 (amended): ties at equal `t` are resolved last-seen-wins: the
guard `t > *t_inout` is strict, so a later primitive whose distance
exactly equals the recorded closest `t` is reported as a hit, and the
closest-hit record `(t_, prim_id_)` is replaced by the later primitive.
In general, every successful `Intersect` moves the record to the tested
primitive. -/
theorem intersect_equal_t_hit_updates_prim (sq : ℚ → ℚ)
    (S : SphereIntersectorState) (t_cur : ℚ) (i : ℕ)
    (h : (Intersect sq S t_cur i).hit = true) :
    (TestPrim sq S t_cur i).2.prim_id_ = i ∧
    (TestPrim sq S t_cur i).2.t_ = (Intersect sq S t_cur i).t_inout := by
  constructor <;> simp [TestPrim, h, Update]

/-- C4, witness: the tied second primitive of the counterexample scene
indeed takes over the record. -/
theorem intersect_equal_t_hit_updates_prim_witness :
    (TestPrim sqrtPS (TestPrim sqrtPS unitSphereS (10 ^ 30) 0).2
        (TestPrim sqrtPS unitSphereS (10 ^ 30) 0).1 1).2.prim_id_ = 1 ∧
    (TestPrim sqrtPS (TestPrim sqrtPS unitSphereS (10 ^ 30) 0).2
        (TestPrim sqrtPS unitSphereS (10 ^ 30) 0).1 1).2.t_ =
      (Intersect sqrtPS (TestPrim sqrtPS unitSphereS (10 ^ 30) 0).2
        (TestPrim sqrtPS unitSphereS (10 ^ 30) 0).1 1).t_inout :=
  intersect_equal_t_hit_updates_prim sqrtPS
    (TestPrim sqrtPS unitSphereS (10 ^ 30) 0).2
    (TestPrim sqrtPS unitSphereS (10 ^ 30) 0).1 1
    (by norm_num [TestPrim, Update, Intersect, solveT, rawT, sortT,
      chooseT, qPre, discrOf, aOf, bOf, cOf, ocOf, sphereCenter, vdot,
      vsub, unitSphereS, PrepareTraversal, unitSphereBase, axialRay,
      allIdsOpts, sqrtPS])

/- ### Claim C5 -/

/-- The zero-radius scene: every primitive is a radius-0 sphere at the
origin, with the axial ray recorded. -/
def zeroRadiusS : SphereIntersectorState :=
  PrepareTraversal { unitSphereBase with radiuss := fun _ => 0 }
    axialRay allIdsOpts

/-- C5, counterexample: a zero-radius sphere CAN be hit.  The axial ray
passes exactly through the center of the radius-0 sphere at the origin
(`disc = 36 - 36 = 0`), and `Intersect` reports a hit at `t = 3`. -/
theorem zero_radius_through_center_hits :
    zeroRadiusS.radiuss 0 = 0 ∧
    (Intersect sqrtPS zeroRadiusS (10 ^ 30) 0).hit = true ∧
    (Intersect sqrtPS zeroRadiusS (10 ^ 30) 0).t_inout = 3 := by
  norm_num [Intersect, solveT, rawT, sortT, chooseT, qPre, discrOf, aOf,
    bOf, cOf, ocOf, sphereCenter, vdot, vsub, zeroRadiusS,
    PrepareTraversal, unitSphereBase, axialRay, allIdsOpts, sqrtPS]

/-- Cauchy-Schwarz for the computed discriminant of a radius-0 sphere:
with `c = |oc|^2` the discriminant `4 ((dir . oc)^2 - |dir|^2 |oc|^2)`
is never positive. -/
theorem zero_radius_discr_nonpos (S : SphereIntersectorState) (i : ℕ)
    (hr : S.radiuss i = 0) :
    discrOf (aOf S) (bOf S i) (cOf S i) ≤ 0 := by
  have hc : cOf S i = vdot (ocOf S i) (ocOf S i) := by
    unfold cOf; rw [hr]; ring
  unfold discrOf aOf bOf
  rw [hc]
  simp only [vdot]
  nlinarith [sq_nonneg (S.ray_dir.x * (ocOf S i).y - S.ray_dir.y * (ocOf S i).x),
    sq_nonneg (S.ray_dir.x * (ocOf S i).z - S.ray_dir.z * (ocOf S i).x),
    sq_nonneg (S.ray_dir.y * (ocOf S i).z - S.ray_dir.z * (ocOf S i).y)]

/-- C5 (amended): a zero-radius sphere is accepted as input, but it can
be hit, exactly when the ray line passes through its center: whenever
`Intersect` reports a hit on a radius-0 sphere (with a nonzero
direction), the hit point `org + t * dir` IS the sphere center. -/
theorem zero_radius_hit_point_is_center (sq : ℚ → ℚ)
    (S : SphereIntersectorState) (t_cur : ℚ) (i : ℕ)
    (ha : aOf S ≠ 0) (hr : S.radiuss i = 0)
    (h : (Intersect sq S t_cur i).hit = true) :
    rayPoint S ((Intersect sq S t_cur i).t_inout) = sphereCenter S i := by
  obtain ⟨hsol, _⟩ := intersect_hit_solveT sq S t_cur i h
  set t := (Intersect sq S t_cur i).t_inout with htdef
  unfold solveT at hsol
  split_ifs at hsol with hd1 hd2
  have hd : discrOf (aOf S) (bOf S i) (cOf S i) = 0 :=
    le_antisymm (zero_radius_discr_nonpos S i hr) (le_of_not_lt hd1)
  have ht : t = chooseT (sortT (rawT sq (aOf S) (bOf S i) (cOf S i))) :=
    (Option.some_injective ℚ hsol).symm
  have htm : t = -(1/2 : ℚ) * (bOf S i / aOf S) := by
    rw [ht, rawT, if_pos hd]
    unfold sortT chooseT
    split_ifs <;> rfl
  have hroot : aOf S * t ^ 2 + bOf S i * t + cOf S i = 0 := by
    rw [htm]
    exact double_root_is_root (aOf S) (bOf S i) (cOf S i) ha hd
  have hsp : onSphere S i t := (onSphere_iff_quad S i t).mpr hroot
  have hv : vdot (vsub (rayPoint S t) (sphereCenter S i))
      (vsub (rayPoint S t) (sphereCenter S i)) = 0 := by
    unfold onSphere at hsp
    rw [hsp, hr]
    ring
  set v := vsub (rayPoint S t) (sphereCenter S i) with hvdef
  have hcomp : v.x * v.x + v.y * v.y + v.z * v.z = 0 := hv
  have hx : v.x = 0 := by
    have : v.x * v.x = 0 := by
      nlinarith [mul_self_nonneg v.y, mul_self_nonneg v.z]
    exact mul_self_eq_zero.mp this
  have hy : v.y = 0 := by
    have : v.y * v.y = 0 := by
      nlinarith [mul_self_nonneg v.x, mul_self_nonneg v.z]
    exact mul_self_eq_zero.mp this
  have hz : v.z = 0 := by
    have : v.z * v.z = 0 := by
      nlinarith [mul_self_nonneg v.x, mul_self_nonneg v.y]
    exact mul_self_eq_zero.mp this
  have hx' : v.x = (rayPoint S t).x - (sphereCenter S i).x := rfl
  have hy' : v.y = (rayPoint S t).y - (sphereCenter S i).y := rfl
  have hz' : v.z = (rayPoint S t).z - (sphereCenter S i).z := rfl
  ext
  · rw [hx'] at hx; linarith
  · rw [hy'] at hy; linarith
  · rw [hz'] at hz; linarith

/-- C5, witness: at the through-center instance the hit point coincides
with the center. -/
theorem zero_radius_hit_point_is_center_witness :
    rayPoint zeroRadiusS
        ((Intersect sqrtPS zeroRadiusS (10 ^ 30) 0).t_inout) =
      sphereCenter zeroRadiusS 0 :=
  zero_radius_hit_point_is_center sqrtPS zeroRadiusS (10 ^ 30) 0
    (by norm_num [aOf, vdot, zeroRadiusS, PrepareTraversal,
      unitSphereBase, axialRay])
    (by norm_num [zeroRadiusS, PrepareTraversal, unitSphereBase])
    (by norm_num [Intersect, solveT, rawT, sortT, chooseT, qPre, discrOf,
      aOf, bOf, cOf, ocOf, sphereCenter, vdot, vsub, zeroRadiusS,
      PrepareTraversal, unitSphereBase, axialRay, allIdsOpts, sqrtPS])

/- ### Claim C6 -/

/-- C6: a primitive id outside the half-open range
`[prim_ids_lo, prim_ids_hi)` stored at `PrepareTraversal` is rejected:
`Intersect` returns false for it on every ray and every current closest
distance, and the closest-hit record is left untouched. -/
theorem intersect_out_of_range_misses (sq : ℚ → ℚ)
    (S0 : SphereIntersectorState) (ray : Ray) (opts : BVHTraceOptions)
    (t_cur : ℚ) (i : ℕ)
    (h : i < opts.prim_ids_lo ∨ opts.prim_ids_hi ≤ i) :
    (Intersect sq (PrepareTraversal S0 ray opts) t_cur i).hit = false ∧
    TestPrim sq (PrepareTraversal S0 ray opts) t_cur i =
      (t_cur, PrepareTraversal S0 ray opts) := by
  have hguard : i < (PrepareTraversal S0 ray opts).trace_options.prim_ids_lo ∨
      (PrepareTraversal S0 ray opts).trace_options.prim_ids_hi ≤ i := h
  constructor
  · simp [Intersect, hguard]
  · simp [TestPrim, Intersect, hguard]

/-- C6, witness: primitive id 7 is rejected under the range `[0, 5)`. -/
theorem intersect_out_of_range_misses_witness :
    (Intersect sqrtPS (PrepareTraversal unitSphereBase axialRay
        ⟨0, 5⟩) (10 ^ 30) 7).hit = false ∧
    TestPrim sqrtPS (PrepareTraversal unitSphereBase axialRay ⟨0, 5⟩)
      (10 ^ 30) 7 = (10 ^ 30, PrepareTraversal unitSphereBase axialRay ⟨0, 5⟩) :=
  intersect_out_of_range_misses sqrtPS unitSphereBase axialRay ⟨0, 5⟩
    (10 ^ 30) 7 (by norm_num)

/- ### Claim C9 -/

/-- C9: a call to `Intersect` that returns false leaves the `*t_inout`
cell at its entry value and does not modify any member field, in
particular not the recorded closest hit `(t_, prim_id_)`; contrapositive
of the first conjunct: `*t_inout` can only change on a call that
returns true. -/
theorem intersect_miss_leaves_state_unchanged (sq : ℚ → ℚ)
    (S : SphereIntersectorState) (t_inout : ℚ) (i : ℕ)
    (h : (Intersect sq S t_inout i).hit = false) :
    (Intersect sq S t_inout i).t_inout = t_inout ∧
    (Intersect sq S t_inout i).st = S := by
  by_cases h1 : i < S.trace_options.prim_ids_lo ∨
      S.trace_options.prim_ids_hi ≤ i
  · constructor <;> simp [Intersect, h1]
  · rcases hsol : solveT sq (aOf S) (bOf S i) (cOf S i) with _ | t
    · constructor <;> simp [Intersect, h1, hsol]
    · by_cases h2 : t > t_inout
      · constructor <;> simp [Intersect, h1, hsol, h2]
      · simp [Intersect, h1, hsol, h2] at h

/-- C9, witness: the axial ray reaches the unit sphere at `t = 2`, so
with the current closest distance already at `1` the call misses and
changes nothing. -/
theorem intersect_miss_leaves_state_unchanged_witness :
    (Intersect sqrtPS unitSphereS 1 0).t_inout = 1 ∧
    (Intersect sqrtPS unitSphereS 1 0).st = unitSphereS :=
  intersect_miss_leaves_state_unchanged sqrtPS unitSphereS 1 0
    (by norm_num [Intersect, unitSphereS, PrepareTraversal, solveT, rawT,
      sortT, chooseT, qPre, discrOf, aOf, bOf, cOf, ocOf, sphereCenter,
      vdot, vsub, unitSphereBase, axialRay, allIdsOpts, sqrtPS])

/- ### The NaN-tracking embedding (claim C3) -/

/-- A `float` value for the NaN-tracking embedding of `Intersect`:
either NaN or an exact rational.  Arithmetic propagates NaN, and every
ordered or equality comparison involving NaN is false, as in IEEE-754.
Infinities, signed zeros and rounding are not modelled: the executions
studied here stay on small dyadic values and never divide a finite
number by zero. -/
inductive FQ where
  | nan : FQ
  | num : ℚ → FQ
deriving DecidableEq

/-- IEEE-style addition on `FQ`. -/
def fadd : FQ → FQ → FQ
  | FQ.num a, FQ.num b => FQ.num (a + b)
  | _, _ => FQ.nan

/-- IEEE-style subtraction on `FQ`. -/
def fsub : FQ → FQ → FQ
  | FQ.num a, FQ.num b => FQ.num (a - b)
  | _, _ => FQ.nan

/-- IEEE-style multiplication on `FQ`. -/
def fmul : FQ → FQ → FQ
  | FQ.num a, FQ.num b => FQ.num (a * b)
  | _, _ => FQ.nan

/-- IEEE-style negation on `FQ`. -/
def fneg : FQ → FQ
  | FQ.num a => FQ.num (-a)
  | FQ.nan => FQ.nan

/-- IEEE-style division on `FQ` (division of a finite number by zero,
which would give an infinity, is not modelled and mapped to NaN; it is
never reached in the executions studied here). -/
def fdiv : FQ → FQ → FQ
  | FQ.num a, FQ.num b => if b = 0 then FQ.nan else FQ.num (a / b)
  | _, _ => FQ.nan

/-- IEEE-style `<` on `FQ`: false whenever an operand is NaN. -/
def flt : FQ → FQ → Bool
  | FQ.num a, FQ.num b => decide (a < b)
  | _, _ => false

/-- IEEE-style `==` on `FQ`: false whenever an operand is NaN. -/
def feq : FQ → FQ → Bool
  | FQ.num a, FQ.num b => decide (a = b)
  | _, _ => false

/-- The C `sqrt` on `FQ`: NaN in, NaN out; a negative argument also
gives NaN; otherwise the (parameterised) exact value. -/
def fsqrt (sq : ℚ → ℚ) : FQ → FQ
  | FQ.nan => FQ.nan
  | FQ.num q => if q < 0 then FQ.nan else FQ.num (sq q)

/-- 3-vector of `FQ` values. -/
structure Vec3F where
  x : FQ
  y : FQ
  z : FQ
deriving DecidableEq

/-- `vdot` on `FQ` vectors, with the left-to-right association
`(x*x + y*y) + z*z` of the C expression. -/
def vdotF (a b : Vec3F) : FQ :=
  fadd (fadd (fmul a.x b.x) (fmul a.y b.y)) (fmul a.z b.z)

/-- Componentwise subtraction on `FQ` vectors. -/
def vsubF (a b : Vec3F) : Vec3F :=
  ⟨fsub a.x b.x, fsub a.y b.y, fsub a.z b.z⟩

/-- The member state of `SphereIntersector` for the NaN-tracking
embedding. -/
structure SphereIntersectorStateF where
  vertices : ℕ → FQ
  radiuss : ℕ → FQ
  ray_org : Vec3F
  ray_dir : Vec3F
  trace_lo : ℕ
  trace_hi : ℕ

/-- `SphereIntersector::Intersect` (render.cc lines 179-246) over the
NaN-tracking values: the same guards and formulas as `Intersect`, with
every comparison false on NaN.  Returns the `bool` result and the value
of `*t_inout` after the call. -/
def IntersectF (sq : ℚ → ℚ) (S : SphereIntersectorStateF) (t_inout : FQ)
    (i : ℕ) : Bool × FQ :=
  if i < S.trace_lo ∨ S.trace_hi ≤ i then (false, t_inout)
  else
    let center := Vec3F.mk (S.vertices (3 * i)) (S.vertices (3 * i + 1))
      (S.vertices (3 * i + 2))
    let radius := S.radiuss i
    let oc := vsubF S.ray_org center
    let a := vdotF S.ray_dir S.ray_dir
    let b := fmul (FQ.num 2) (vdotF S.ray_dir oc)
    let c := fsub (vdotF oc oc) (fmul radius radius)
    let disc := fsub (fmul b b) (fmul (fmul (FQ.num 4) a) c)
    if flt disc (FQ.num 0) then (false, t_inout)
    else
      let t0t1 :=
        if feq disc (FQ.num 0) then
          (fmul (FQ.num (-(1/2))) (fdiv b a),
           fmul (FQ.num (-(1/2))) (fdiv b a))
        else
          let distSqrt := fsqrt sq disc
          let q := if flt b (FQ.num 0) then
              fdiv (fsub (fneg b) distSqrt) (FQ.num 2)
            else
              fdiv (fadd (fneg b) distSqrt) (FQ.num 2)
          (fdiv q a, fdiv c q)
      let t0 := if flt t0t1.2 t0t1.1 then t0t1.2 else t0t1.1
      let t1 := if flt t0t1.2 t0t1.1 then t0t1.1 else t0t1.2
      if flt t1 (FQ.num 0) then (false, t_inout)
      else
        let t := if flt t0 (FQ.num 0) then t1 else t0
        if flt t_inout t then (false, t_inout)
        else (true, t)

/-- A sphere whose center x-coordinate is NaN, radius 1, with the axial
ray and default-style trace options. -/
def nanCenterS : SphereIntersectorStateF :=
  { vertices := fun n => if n = 0 then FQ.nan else FQ.num 0,
    radiuss := fun _ => FQ.num 1,
    ray_org := ⟨FQ.num 0, FQ.num 0, FQ.num 3⟩,
    ray_dir := ⟨FQ.num 0, FQ.num 0, FQ.num (-1)⟩,
    trace_lo := 0, trace_hi := 2147483647 }

/-- C3: a NaN sphere center makes every comparison in `Intersect` false,
so the code falls through all the guards and returns TRUE with
`*t_inout` set to NaN, instead of reporting a miss as the specification
demands. -/
theorem intersectF_nan_center_reports_hit :
    (IntersectF sqrtPS nanCenterS (FQ.num (10 ^ 30)) 0).1 = true ∧
    (IntersectF sqrtPS nanCenterS (FQ.num (10 ^ 30)) 0).2 = FQ.nan := by
  norm_num [IntersectF, nanCenterS, vdotF, vsubF, fadd, fsub, fmul, fneg,
    fdiv, flt, feq, fsqrt, sqrtPS]

/- ### Claim C8 -/

/-- `Renderer::BuildBVH` (render.cc lines 642-682), with the call to
`nanort::BVHAccel::Build` (in `nanort.h`, not under `src/`) abstracted
as a function `build` of the primitive count.  Returns the `bool` result
together with an indicator of whether the build step was invoked: the
guard `gParticles.radiuss.size() < 1` returns false before any build
work happens. -/
def BuildBVH (radiuss : List ℚ) (build : ℕ → Bool) : Bool × Bool :=
  if radiuss.length < 1 then (false, false)
  else (build radiuss.length, true)

/-- C8: on an empty scene (empty particle radius array) `BuildBVH`
returns false and the BVH build is never invoked, whatever the build
step would have returned. -/
theorem buildBVH_empty_fails_without_build (build : ℕ → Bool) :
    BuildBVH [] build = (false, false) := by
  simp [BuildBVH]

/- ### Claim C10 -/

/-- A picojson value, restricted to the variants the render-config
loader inspects. -/
inductive JValue where
  | jnull : JValue
  | jnum : ℚ → JValue
  | jstr : String → JValue
  | jarr : List JValue → JValue

/-- `std::map::find` on a picojson object: the value stored under the
key, if present. -/
def jfind (o : List (String × JValue)) (k : String) : Option JValue :=
  (o.find? fun p => p.1 == k).map Prod.snd

/-- `picojson::object::operator[]`: the stored value, or the
default-constructed null that C++ inserts when the key is absent. -/
def jindex (o : List (String × JValue)) (k : String) : JValue :=
  (jfind o k).getD JValue.jnull

/-- `value::is<double>()`. -/
def isDouble : JValue → Bool
  | JValue.jnum _ => true
  | _ => false

/-- `value::get<double>()` (only called on numeric values here). -/
def getDouble : JValue → ℚ
  | JValue.jnum q => q
  | _ => 0

/-- `static_cast<int>` applied to a C `double`: truncation toward 0. -/
def truncQ (q : ℚ) : ℤ :=
  if 0 ≤ q then (q.num.toNat / q.den : ℕ) else -((-q.num).toNat / q.den : ℕ)

/-- The `fov` logic of `LoadRenderConfig` (render-config.cc lines
93-98): `config->fov` starts at the default `45.0f`; when a `"fov"` key
exists, the code then tests `o["width"].is<double>()` — the `"width"`
entry, not the `"fov"` one — and only when that test passes stores
`static_cast<int>(o["fov"].get<double>())`. -/
def loadFov (o : List (String × JValue)) : ℚ :=
  if (jfind o "fov").isSome then
    if isDouble (jindex o "width") then
      ((truncQ (getDouble (jindex o "fov")) : ℤ) : ℚ)
    else 45
  else 45

/-- C10: with a numeric `"fov"` entry present, the fov override is
applied only when a numeric `"width"` entry is also present (and it is
truncated to an integer); without a `"width"` entry — or with a
non-numeric one — `config->fov` keeps its default 45. -/
theorem loadRenderConfig_fov_requires_width
    (o : List (String × JValue)) (qf : ℚ)
    (hf : jfind o "fov" = some (JValue.jnum qf)) :
    (jfind o "width" = none → loadFov o = 45) ∧
    (∀ v, jfind o "width" = some v → isDouble v = false → loadFov o = 45) ∧
    (∀ qw, jfind o "width" = some (JValue.jnum qw) →
      loadFov o = ((truncQ qf : ℤ) : ℚ)) := by
  refine ⟨?_, ?_, ?_⟩
  · intro hw
    simp [loadFov, hf, jindex, hw, isDouble]
  · intro v hw hv
    simp [loadFov, hf, jindex, hw, hv]
  · intro qw hw
    simp [loadFov, hf, jindex, hw, isDouble, getDouble]

/-- C10, witness: `fov = 59.5` with `width = 640` is applied truncated
to 59; the same `fov` without `width` stays at the default 45. -/
theorem loadRenderConfig_fov_requires_width_witness :
    (jfind [("fov", JValue.jnum (119/2))] "width" = none →
      loadFov [("fov", JValue.jnum (119/2))] = 45) ∧
    (∀ v, jfind [("fov", JValue.jnum (119/2))] "width" = some v →
      isDouble v = false → loadFov [("fov", JValue.jnum (119/2))] = 45) ∧
    (∀ qw, jfind [("fov", JValue.jnum (119/2))] "width" =
        some (JValue.jnum qw) →
      loadFov [("fov", JValue.jnum (119/2))] =
        ((truncQ (119/2) : ℤ) : ℚ)) :=
  loadRenderConfig_fov_requires_width [("fov", JValue.jnum (119/2))]
    (119/2) (by simp [jfind, List.find?])

/- ### Claim C7 -/

/-- 3-vector of reals for the transcendental part of `PostTraversal`. -/
@[ext]
structure Vec3R where
  x : ℝ
  y : ℝ
  z : ℝ

/-- Dot product over `ℝ`. -/
noncomputable def vdotR (a b : Vec3R) : ℝ :=
  a.x * b.x + a.y * b.y + a.z * b.z

/-- Componentwise subtraction over `ℝ`. -/
noncomputable def vsubR (a b : Vec3R) : Vec3R :=
  ⟨a.x - b.x, a.y - b.y, a.z - b.z⟩

/-- Componentwise addition over `ℝ`. -/
noncomputable def vaddR (a b : Vec3R) : Vec3R :=
  ⟨a.x + b.x, a.y + b.y, a.z + b.z⟩

/-- Scalar multiple over `ℝ`. -/
noncomputable def smulR (t : ℝ) (v : Vec3R) : Vec3R :=
  ⟨t * v.x, t * v.y, t * v.z⟩

/-- `nanort::vnormalize` (in `nanort.h`, not under `src/`): the vector
divided by its Euclidean length `sqrt(v . v)`. -/
noncomputable def vnormalizeR (v : Vec3R) : Vec3R :=
  ⟨v.x / Real.sqrt (vdotR v v), v.y / Real.sqrt (vdotR v v),
   v.z / Real.sqrt (vdotR v v)⟩

/-- The C library `atan2(y, x)`, embedded through Mathlib's
`Real.arctan` with the usual quadrant corrections. -/
noncomputable def atan2R (y x : ℝ) : ℝ :=
  if 0 < x then Real.arctan (y / x)
  else if x < 0 ∧ 0 ≤ y then Real.arctan (y / x) + Real.pi
  else if x < 0 ∧ y < 0 then Real.arctan (y / x) - Real.pi
  else if x = 0 ∧ 0 < y then Real.pi / 2
  else if x = 0 ∧ y < 0 then -(Real.pi / 2)
  else 0

/-- `SphereIntersection` (render.cc lines 154-165): surface parameters
`u`, `v`, hit distance `t` and primitive id. -/
structure SphereIntersection where
  u : ℝ
  v : ℝ
  t : ℝ
  prim_id : ℕ

/-- The member state of `SphereIntersector` read by `PostTraversal`:
geometry, recorded ray, and the closest-hit record. -/
structure SphereIntersectorStateR where
  vertices : ℕ → ℝ
  ray_org : Vec3R
  ray_dir : Vec3R
  t_ : ℝ
  prim_id_ : ℕ

/-- `float3 hitP = ray_org_ + t_ * ray_dir_` (render.cc line 280). -/
noncomputable def hitP (S : SphereIntersectorStateR) : Vec3R :=
  vaddR S.ray_org (smulR S.t_ S.ray_dir)

/-- `float3 center = float3(&vertices_[3*prim_id_])` (line 281). -/
noncomputable def hitCenter (S : SphereIntersectorStateR) : Vec3R :=
  ⟨S.vertices (3 * S.prim_id_), S.vertices (3 * S.prim_id_ + 1),
   S.vertices (3 * S.prim_id_ + 2)⟩

/-- `float3 n = vnormalize(hitP - center)` (line 282). -/
noncomputable def hitN (S : SphereIntersectorStateR) : Vec3R :=
  vnormalizeR (vsubR (hitP S) (hitCenter S))

/-- `SphereIntersector::PostTraversal` (render.cc lines 278-288): on a
hit, fill the intersection record with `t_`, `prim_id_` and the surface
parameters `u = (atan2(n.x, n.z) + pi) * 0.5 * (1 / pi)`,
`v = acos(n.y) / pi`; otherwise leave it unchanged. -/
noncomputable def PostTraversal (S : SphereIntersectorStateR) (hit : Bool)
    (isect : SphereIntersection) : SphereIntersection :=
  if hit then
    { t := S.t_, prim_id := S.prim_id_,
      u := (atan2R (hitN S).x (hitN S).z + Real.pi) * (1/2) * (1 / Real.pi),
      v := Real.arccos (hitN S).y / Real.pi }
  else isect

/-- The state `PostTraversal` sees after the axial ray hit the unit
sphere at the origin: `t_ = 2`, `prim_id_ = 0`. -/
noncomputable def axialHitStateR : SphereIntersectorStateR :=
  { vertices := fun _ => 0, ray_org := ⟨0, 0, 3⟩, ray_dir := ⟨0, 0, -1⟩,
    t_ := 2, prim_id_ := 0 }

/-- C7: for the unit sphere at the origin and the ray
`org = (0,0,3)`, `dir = (0,0,-1)`, `min_t = 0`, large `max_t`,
`Intersect` reports a hit at `t = 2`, and `PostTraversal` derives the
surface normal `(0,0,1)` and the parameters `u = 1/2`, `v = 1/2`. -/
theorem unit_sphere_axial_ray_hit_scenario :
    (Intersect sqrtPS unitSphereS (10 ^ 30) 0).hit = true ∧
    (Intersect sqrtPS unitSphereS (10 ^ 30) 0).t_inout = 2 ∧
    axialRay.min_t = 0 ∧
    hitN axialHitStateR = ⟨0, 0, 1⟩ ∧
    (PostTraversal axialHitStateR true ⟨0, 0, 0, 0⟩).u = 1/2 ∧
    (PostTraversal axialHitStateR true ⟨0, 0, 0, 0⟩).v = 1/2 ∧
    (PostTraversal axialHitStateR true ⟨0, 0, 0, 0⟩).t = 2 ∧
    (PostTraversal axialHitStateR true ⟨0, 0, 0, 0⟩).prim_id = 0 := by
  have hhit : (Intersect sqrtPS unitSphereS (10 ^ 30) 0).hit = true ∧
      (Intersect sqrtPS unitSphereS (10 ^ 30) 0).t_inout = 2 := by
    constructor <;>
      norm_num [Intersect, solveT, rawT, sortT, chooseT, qPre, discrOf,
        aOf, bOf, cOf, ocOf, sphereCenter, vdot, vsub, unitSphereS,
        PrepareTraversal, unitSphereBase, axialRay, allIdsOpts, sqrtPS]
  have hn : hitN axialHitStateR = ⟨0, 0, 1⟩ := by
    have hd : vsubR (hitP axialHitStateR) (hitCenter axialHitStateR)
        = ⟨0, 0, 1⟩ := by
      unfold hitP hitCenter vsubR vaddR smulR axialHitStateR
      ext <;> norm_num
    unfold hitN vnormalizeR
    rw [hd]
    have hq : vdotR ⟨0, 0, 1⟩ ⟨0, 0, 1⟩ = 1 := by
      unfold vdotR; norm_num
    rw [hq, Real.sqrt_one]
    ext <;> norm_num
  have hatan : atan2R (0 : ℝ) 1 = 0 := by
    unfold atan2R
    rw [if_pos one_pos]
    norm_num [Real.arctan_zero]
  refine ⟨hhit.1, hhit.2, rfl, hn, ?_, ?_, ?_, ?_⟩
  · unfold PostTraversal
    rw [if_pos rfl]
    show (atan2R (hitN axialHitStateR).x (hitN axialHitStateR).z +
        Real.pi) * (1/2) * (1 / Real.pi) = 1/2
    rw [hn]
    show ((atan2R 0 1 + Real.pi) * (1/2) * (1 / Real.pi) : ℝ) = 1/2
    rw [hatan]
    field_simp
    ring
  · unfold PostTraversal
    rw [if_pos rfl]
    show (Real.arccos (hitN axialHitStateR).y / Real.pi : ℝ) = 1/2
    rw [hn]
    show (Real.arccos 0 / Real.pi : ℝ) = 1/2
    rw [Real.arccos_zero, div_div,
      div_eq_iff (by positivity : (2 : ℝ) * Real.pi ≠ 0)]
    ring
  · unfold PostTraversal
    rw [if_pos rfl]
    norm_num [axialHitStateR]
  · unfold PostTraversal
    rw [if_pos rfl]
    norm_num [axialHitStateR]

end Example
